import Mathlib

/-!
Verification of the swim-rs membership reactor.

A shallow embedding of `src/src/lib.rs` (a SWIM-style cluster membership
reactor).  Socket addresses, UUIDs and wall-clock instants are modelled as
`Nat`; the JSON codec is external to the repository, so serialized size is a
parameter `size : Message → Nat` wherever the code measures it.  The modules
`member.rs` and `memberlist.rs` are referenced by `lib.rs` but are not part of
the sources; the definitions that stand in for them are modelled from the
spec and say so in their doc comments.
-/

namespace Swim

/-- Liveness states of a member, from `member.rs` via the spec (§3):
`Alive`, `Suspect`, `Down`, `Left`. -/
inductive MemberState where
  | Alive
  | Suspect
  | Down
  | Left
deriving DecidableEq, Repr

/-- Modelled from the spec: `member.rs` is not under `src/`.  A `Member` has a
`host_key` (identity), an optional network `address`, an `incarnation`
counter, and a `state` (§3). -/
structure Member where
  host_key : Nat
  address : Option Nat
  incarnation : Nat
  state : MemberState
deriving DecidableEq, Repr

/-- Modelled from the spec: `member.rs` is not under `src/`.
`Member::remote_host` yields the member's network address. -/
def Member.remote_host (m : Member) : Option Nat :=
  m.address

/-- Modelled from the spec: `member.rs` is not under `src/`.  A `StateChange`
is "a record wrapping one Member snapshot" (§3). -/
structure StateChange where
  member : Member
deriving DecidableEq, Repr

/-- Modelled from the spec: `StateChange::update` replaces the wrapped
snapshot ("overwrite it in place", §4.3). -/
def StateChange.update (_sc : StateChange) (m : Member) : StateChange :=
  ⟨m⟩

/-- The four wire request kinds (`enum Request` in `lib.rs`); the
`PingRequest` payload is the target address. -/
inductive Request where
  | Ping
  | Ack
  | PingRequest (addr : Nat)
  | AckHost (member : Member)
deriving DecidableEq, Repr

/-- Embeds `struct Message` of `lib.rs`: sender key, cluster key, request, and the
piggybacked state changes. -/
structure Message where
  sender : Nat
  cluster_key : List Nat
  request : Request
  state_changes : List StateChange
deriving DecidableEq, Repr

/-- Embeds `struct TargetedRequest` of `lib.rs`. -/
structure TargetedRequest where
  request : Request
  target : Nat
deriving DecidableEq, Repr

/-- Embeds `enum InternalRequest` of `lib.rs` (the `Exit` variant's channel sender
is dropped from the model). -/
inductive InternalRequest where
  | AddSeed (addr : Nat)
  | Respond (src : Nat) (msg : Message)
  | React (req : TargetedRequest)
  | LeaveCluster
  | Exit
deriving DecidableEq, Repr

/-- Embeds one entry of `pending_responses : Vec<(time::Tm, SocketAddr,
Vec<StateChange>)>` in `lib.rs`. -/
structure PendingProbe where
  deadline : Nat
  addr : Nat
  changes : List StateChange
deriving DecidableEq, Repr

/-- Embeds `enum MemberEvent` of `lib.rs`. -/
inductive MemberEvent where
  | MemberJoined (m : Member)
  | MemberWentUp (m : Member)
  | MemberSuspectedDown (m : Member)
  | MemberWentDown (m : Member)
  | MemberLeft (m : Member)
deriving DecidableEq, Repr

/-- Embeds `ClusterEvent = (Vec<Member>, MemberEvent)` of `lib.rs`: the event paired
with the availability snapshot taken when it is sent. -/
abbrev ClusterEvent : Type := List Member × MemberEvent

/-- Embeds the inner scan of `enqueue_state_change` in `lib.rs` (lines 482–493), translated exactly:
for each member the inner loop looks for an entry with the same `host_key`
and, on a hit, updates it and `return`s from the whole function (so the
remaining members of the batch are dropped); on a miss the member is
appended and the outer loop continues. -/
def overwriteFirst (log : List StateChange) (m : Member) : Option (List StateChange) :=
  match log with
  | [] => none
  | sc :: rest =>
    if sc.member.host_key = m.host_key then
      some (sc.update m :: rest)
    else
      (overwriteFirst rest m).map (sc :: ·)

/-- The outer loop of `enqueue_state_change` (lines 482–493 of `lib.rs`).
When `overwriteFirst` succeeds the Rust `return` fires and the rest of the
batch is discarded. -/
def enqueue_state_change (log : List StateChange) (members : List Member) : List StateChange :=
  match members with
  | [] => log
  | m :: rest =>
    match overwriteFirst log m with
    | some log₂ => log₂
    | none => enqueue_state_change (log ++ [StateChange.mk m]) rest

/-- Embeds `build_message` of `lib.rs` (lines 430–457): iterate prefix lengths
`i = 0, 1, …, n`; the first prefix whose encoding reaches `network_mtu`
is returned as-is; if none reaches it, the full log is piggybacked.
`size` stands for `json::encode(..).len()`. -/
def build_message (size : Message → Nat) (sender : Nat) (cluster_key : List Nat)
    (request : Request) (state_changes : List StateChange) (network_mtu : Nat) : Message :=
  match (List.range (state_changes.length + 1)).find?
      (fun i => network_mtu ≤ size (Message.mk sender cluster_key request (state_changes.take i))) with
  | some i => Message.mk sender cluster_key request (state_changes.take i)
  | none => Message.mk sender cluster_key request state_changes

/-- Embeds `State::ack_response` of `lib.rs` (lines 350–365): collect every pending
probe whose address equals `src`, drop from the log every entry whose
`host_key` occurs in one of those probes' snapshots, then retain only the
pending probes not collected.  Returns the new `pending_responses` and the
new `state_changes`. -/
def ack_response (pending : List PendingProbe) (log : List StateChange) (src : Nat) :
    List PendingProbe × List StateChange :=
  let to_remove := pending.filter (fun p => p.addr = src)
  let log' := to_remove.foldl
    (fun l p => l.filter (fun os => ¬ p.changes.any (fun is => is.member.host_key = os.member.host_key)))
    log
  let pending' := pending.filter (fun op => ¬ to_remove.any (fun ip => ip = op))
  (pending', log')

/-- Embeds `state_rank` from the spec (§4.1): `Alive=0, Suspect=1, Down=2, Left=3`. -/
def state_rank : MemberState → Nat
  | .Alive => 0
  | .Suspect => 1
  | .Down => 2
  | .Left => 3

/-- Modelled from the spec: `memberlist.rs` is not under `src/`.  A
`MemberList` is "a set of Members keyed by `host_key`" holding the local
node's key so that self can be distinguished (§3, §4.2). -/
structure MemberList where
  self_key : Nat
  members : List Member
deriving DecidableEq, Repr

/-- Modelled from the spec: `MemberList::new(me)` starts from the single
local member. -/
def MemberList.new (me : Member) : MemberList :=
  ⟨me.host_key, [me]⟩

/-- Modelled from the spec: `has_member` asks whether some member is bound to
the given address. -/
def MemberList.has_member (ml : MemberList) (addr : Nat) : Bool :=
  ml.members.any (fun m => m.address = some addr)

/-- Modelled from the spec: `add_member` inserts a freshly seen member. -/
def MemberList.add_member (ml : MemberList) (m : Member) : MemberList :=
  { ml with members := ml.members ++ [m] }

/-- Modelled from the spec (§4.2): `available_nodes()` returns "all members
whose state is Alive or Suspect". -/
def MemberList.available_nodes (ml : MemberList) : List Member :=
  ml.members.filter (fun m => m.state = .Alive ∨ m.state = .Suspect)

/-- Modelled from the spec (§4.2): what `time_out_nodes` does to one member:
when its address is in the expired set, Alive becomes Suspect and Suspect
becomes Down; the two flags record which of the two transitions fired. -/
def timeOutStep (expired : List Nat) (m : Member) : Member × Bool × Bool :=
  if (m.address.map (fun a => decide (a ∈ expired))).getD false then
    match m.state with
    | .Alive => ({ m with state := .Suspect }, true, false)
    | .Suspect => ({ m with state := .Down }, false, true)
    | _ => (m, false, false)
  else (m, false, false)

/-- Modelled from the spec (§4.2): `time_out_nodes(expired)` transitions
Alive→Suspect and Suspect→Down for each member bound to an expired address;
Down and Left members are untouched.  Returns the updated list together with
the newly Suspect and newly Down members. -/
def MemberList.time_out_nodes (ml : MemberList) (expired : List Nat) :
    MemberList × List Member × List Member :=
  let stepped : List (Member × Bool × Bool) := ml.members.map (timeOutStep expired)
  ({ ml with members := stepped.map (·.1) },
   (stepped.filter (·.2.1)).map (·.1),
   (stepped.filter (·.2.2)).map (·.1))

/-- Modelled from the spec (§4.2): `mark_node_alive(address)` "returns
Some(member) iff the state actually changed to Alive"; when it does, the
member record is updated to Alive. -/
def MemberList.mark_node_alive (ml : MemberList) (addr : Nat) :
    Option Member × MemberList :=
  match ml.members.find? (fun m => m.address = some addr) with
  | none => (none, ml)
  | some m =>
    if m.state = .Alive then (none, ml)
    else
      let m' := { m with state := MemberState.Alive }
      (some m',
       { ml with members := ml.members.map (fun x => if x.host_key = m.host_key then m' else x) })

/-- Modelled from the spec (§4.2): `leave()` sets self to Left and returns
the updated snapshot. -/
def MemberList.leave (ml : MemberList) : Member × MemberList :=
  let stepped := ml.members.map
    (fun m => if m.host_key = ml.self_key then { m with state := MemberState.Left } else m)
  (⟨ml.self_key, (ml.members.find? (fun m => m.host_key = ml.self_key)).bind (·.address),
    ((ml.members.find? (fun m => m.host_key = ml.self_key)).map (·.incarnation)).getD 0,
    .Left⟩,
   { ml with members := stepped })

/-- Modelled from the spec (§4.2): `hosts_for_indirect_ping(k, target)` picks
up to `k` Alive peers other than self and the target (the spec leaves the
selection open; the model takes the first `k` in list order). -/
def MemberList.hosts_for_indirect_ping (ml : MemberList) (k : Nat) (target : Nat) :
    List Nat :=
  ((ml.members.filter (fun m =>
      m.state = MemberState.Alive ∧ m.host_key ≠ ml.self_key ∧ m.address ≠ some target)).filterMap
    (·.address)).take k

/-- Modelled from the spec (§4.1): merging an incoming snapshot `r` into a
local record `l` with the same `host_key`: adopt `r` when its incarnation is
larger; adopt `r`'s state when incarnations tie and `r`'s state ranks
higher; otherwise ignore. -/
def merge_snapshot (l r : Member) : Option Member :=
  if l.incarnation < r.incarnation then some { r with address := l.address }
  else if l.incarnation = r.incarnation ∧ state_rank l.state < state_rank r.state then
    some { l with state := r.state }
  else none

/-- Modelled from the spec (§4.1, §4.2): apply one piggybacked snapshot.
A self-referential Suspect/Down snapshot is refuted by bumping the local
incarnation and re-asserting Alive (the refutation is reported as a change so
that it "enters the StateChangeLog"); an unknown `host_key` is added (its
address defaulting to the datagram's source when the snapshot carries none);
a known one is merged.  Returns the updated list, the newly added members and
the changed members. -/
def MemberList.apply_one (ml : MemberList) (from_addr : Nat) (r : Member) :
    MemberList × List Member × List Member :=
  if r.host_key = ml.self_key then
    if r.state = MemberState.Suspect ∨ r.state = MemberState.Down then
      match ml.members.find? (fun m => m.host_key = ml.self_key) with
      | some me =>
        let me' := { me with incarnation := me.incarnation + 1, state := MemberState.Alive }
        ({ ml with members := ml.members.map (fun x => if x.host_key = ml.self_key then me' else x) },
         [], [me'])
      | none => (ml, [], [])
    else (ml, [], [])
  else
    match ml.members.find? (fun m => m.host_key = r.host_key) with
    | none =>
      let r' := if r.address = none then { r with address := some from_addr } else r
      ({ ml with members := ml.members ++ [r'] }, [r'], [])
    | some l =>
      match merge_snapshot l r with
      | some l' =>
        ({ ml with members := ml.members.map (fun x => if x.host_key = r.host_key then l' else x) },
         [], [l'])
      | none => (ml, [], [])

/-- Modelled from the spec (§4.2): `apply_state_changes(changes, from)` folds
`apply_one` over the batch, accumulating the newly added and changed
members. -/
def MemberList.apply_state_changes (ml : MemberList) (changes : List StateChange)
    (from_addr : Nat) : MemberList × List Member × List Member :=
  changes.foldl
    (fun acc sc =>
      let (ml', new, changed) := acc.1.apply_one from_addr sc.member
      (ml', acc.2.1 ++ new, acc.2.2 ++ changed))
    (ml, [], [])

/-- Embeds `ClusterConfig` of `lib.rs` (durations in an abstract time unit, the
listen address immaterial to the embedded logic). -/
structure Config where
  cluster_key : List Nat
  ping_interval : Nat
  network_mtu : Nat
  ping_request_host_count : Nat
  ping_timeout : Nat
deriving DecidableEq, Repr

/-- Embeds `struct State` of `lib.rs`: the reactor's mutable state.  The socket and
the two channel handles carry no state and are modelled by the outputs of
each step. -/
structure State where
  host_key : Nat
  config : Config
  members : MemberList
  seed_queue : List Nat
  pending_responses : List PendingProbe
  state_changes : List StateChange
  wait_list : List (Nat × List Nat)
deriving DecidableEq, Repr

/-- Everything a reactor step pushes to the outside world: the new state, the
internal requests put on `request_tx`, the cluster events put on `event_tx`,
and the datagrams written to the socket as (target, message). -/
structure StepOut where
  state : State
  reqs : List InternalRequest
  events : List ClusterEvent
  sent : List (Nat × Message)
deriving DecidableEq

/-- Embeds `add_to_wait_list` of `lib.rs` (lines 459–464): push onto the entry for
`wait_addr`, creating it when absent. -/
def add_to_wait_list (wl : List (Nat × List Nat)) (wait_addr notify_addr : Nat) :
    List (Nat × List Nat) :=
  if wl.any (fun e => e.1 = wait_addr) then
    wl.map (fun e => if e.1 = wait_addr then (e.1, e.2 ++ [notify_addr]) else e)
  else wl ++ [(wait_addr, [notify_addr])]

/-- Embeds `HashMap::get` on the wait list. -/
def wl_lookup (wl : List (Nat × List Nat)) (k : Nat) : Option (List Nat) :=
  (wl.find? (fun e => e.1 = k)).map (·.2)

/-- Embeds `wait_list.clear()` inside `mark_node_alive`: the vector under the key is
emptied in place (the key itself stays). -/
def wl_clear (wl : List (Nat × List Nat)) (k : Nat) : List (Nat × List Nat) :=
  wl.map (fun e => if e.1 = k then (e.1, ([] : List Nat)) else e)

/-- Embeds `remove_potential_seed` of `lib.rs` (lines 466–468). -/
def remove_potential_seed (seed_queue : List Nat) (src : Nat) : List Nat :=
  seed_queue.filter (fun addr => addr ≠ src)

/-- Embeds `determine_member_event` of `lib.rs` (lines 470–480). -/
def determine_member_event (member : Member) : MemberEvent :=
  match member.state with
  | .Alive => .MemberWentUp member
  | .Suspect => .MemberSuspectedDown member
  | .Down => .MemberWentDown member
  | .Left => .MemberLeft member

/-- The `assert_eq!` guards of `State::send_member_event` in `lib.rs` (lines
379–391): each event kind demands the matching member state (vacuous for
`MemberJoined`). -/
def event_state_ok : MemberEvent → Bool
  | .MemberJoined _ => true
  | .MemberWentUp m => m.state = .Alive
  | .MemberSuspectedDown m => m.state = .Suspect
  | .MemberWentDown m => m.state = .Down
  | .MemberLeft m => m.state = .Left

/-- Embeds `State::send_member_event` (lines 379–391): the event is sent paired with
`members.available_nodes()` taken at that moment. -/
def send_member_event (ml : MemberList) (e : MemberEvent) : ClusterEvent :=
  (ml.available_nodes, e)

/-- Embeds `State::send_ping_requests` (lines 280–289): one `PingRequest(target)`
reaction per relay returned by `hosts_for_indirect_ping`; nothing when the
target has no address. -/
def send_ping_requests (s : State) (target : Member) : List InternalRequest :=
  match target.remote_host with
  | none => []
  | some target_host =>
    (s.members.hosts_for_indirect_ping s.config.ping_request_host_count target_host).map
      (fun relay => .React ⟨.PingRequest target_host, relay⟩)

/-- Embeds `State::prune_timed_out_responses` (lines 250–278), translated exactly:
`partition (t < now)` puts the entries whose deadline has passed into the
FIRST component (which the code keeps as `remaining`) and the entries whose
deadline has not passed into the SECOND (which the code feeds to
`time_out_nodes` as `expired`). -/
def prune_timed_out_responses (s : State) (now : Nat) : StepOut :=
  let part := s.pending_responses.partition (fun p => p.deadline < now)
  let remaining := part.1
  let expired := part.2
  let expired_hosts := (expired.map (·.addr)).dedup
  let tos := s.members.time_out_nodes expired_hosts
  let ml' := tos.1
  let suspect := tos.2.1
  let down := tos.2.2
  let log₁ := enqueue_state_change s.state_changes down
  let log₂ := enqueue_state_change log₁ suspect
  let s' := { s with pending_responses := remaining, members := ml', state_changes := log₂ }
  { state := s'
    reqs := suspect.flatMap (fun m => send_ping_requests s' m)
    events := suspect.map (fun m => send_member_event ml' (.MemberSuspectedDown m)) ++
              down.map (fun m => send_member_event ml' (.MemberWentDown m))
    sent := [] }

/-- Embeds `State::process_request` (lines 209–230): build the outgoing message,
record a pending probe when it is a Ping, then `assert!` that the encoding is
below the MTU before writing to the socket; `none` models the assertion
panicking. -/
def process_request (size : Message → Nat) (s : State) (now : Nat)
    (req : TargetedRequest) : Option (State × (Nat × Message)) :=
  let timeout := now + s.config.ping_timeout
  let m := build_message size s.host_key s.config.cluster_key req.request
             s.state_changes s.config.network_mtu
  let s' := if req.request = Request.Ping then
      { s with pending_responses :=
          s.pending_responses ++ [⟨timeout, req.target, m.state_changes⟩] }
    else s
  if size m < s.config.network_mtu then some (s', (req.target, m)) else none

/-- Embeds `State::apply_state_changes` (lines 393–406): merge the piggybacked
changes into the member list, enqueue the new then the changed members, then
emit `MemberJoined` for each new member and `determine_member_event` for each
changed one. -/
def apply_state_changes_s (s : State) (changes : List StateChange) (from_addr : Nat) :
    State × List ClusterEvent :=
  let ap := s.members.apply_state_changes changes from_addr
  let ml' := ap.1
  let new := ap.2.1
  let changed := ap.2.2
  let log₁ := enqueue_state_change s.state_changes new
  let log₂ := enqueue_state_change log₁ changed
  ({ s with members := ml', state_changes := log₂ },
   new.map (fun m => send_member_event ml' (.MemberJoined m)) ++
   changed.map (fun m => send_member_event ml' (determine_member_event m)))

/-- Embeds `State::ensure_node_is_member` (lines 367–377): a sender at an unknown
address joins as a fresh Alive member at incarnation 0. -/
def ensure_node_is_member (s : State) (src : Nat) (sender : Nat) :
    State × List ClusterEvent :=
  if s.members.has_member src then (s, [])
  else
    let new_member : Member := ⟨sender, some src, 0, .Alive⟩
    let ml' := s.members.add_member new_member
    ({ s with members := ml',
              state_changes := enqueue_state_change s.state_changes [new_member] },
     [send_member_event ml' (.MemberJoined new_member)])

/-- Embeds `State::mark_node_alive` (lines 408–427): only when
`members.mark_node_alive` reports an actual change does the reactor notify
the wait list (an `AckHost` reaction per recorded relay, then the entry is
cleared), enqueue the change and emit `MemberWentUp`. -/
def mark_node_alive_s (s : State) (src : Nat) :
    State × List InternalRequest × List ClusterEvent :=
  let r := s.members.mark_node_alive src
  match r.1 with
  | none => (s, [], [])
  | some member =>
    let ml' := r.2
    let reqs := ((wl_lookup s.wait_list src).getD []).map
      (fun remote => InternalRequest.React ⟨.AckHost member, remote⟩)
    ({ s with members := ml',
              wait_list := wl_clear s.wait_list src,
              state_changes := enqueue_state_change s.state_changes [member] },
     reqs,
     [send_member_event ml' (.MemberWentUp member)])

/-- Embeds `State::respond_to_message` (lines 311–348).  A mismatching cluster key
only prints a warning and leaves everything untouched.  Otherwise the
piggybacked changes are applied, the source is removed from the seed queue
and ensured to be a member, and the request is dispatched: Ping answers with
an Ack reaction; Ack (and AckHost, for the named member's address) retires
pending probes and marks the node alive; PingRequest records the source on
the wait list and pings the target.  `none` models the panic of
`member.remote_host().unwrap()` on an address-less `AckHost` member. -/
def respond_to_message (s : State) (src : Nat) (msg : Message) :
    Option (State × List InternalRequest × List ClusterEvent) :=
  if msg.cluster_key ≠ s.config.cluster_key then some (s, [], [])
  else
    let ap := apply_state_changes_s s msg.state_changes src
    let s₁ := ap.1
    let ev₁ := ap.2
    let s₂ := { s₁ with seed_queue := remove_potential_seed s₁.seed_queue src }
    let en := ensure_node_is_member s₂ src msg.sender
    let s₃ := en.1
    let ev₂ := en.2
    match msg.request with
    | .Ping => some (s₃, [.React ⟨.Ack, src⟩], ev₁ ++ ev₂)
    | .Ack =>
      let pr := ack_response s₃.pending_responses s₃.state_changes src
      let s₄ := { s₃ with pending_responses := pr.1, state_changes := pr.2 }
      let mk := mark_node_alive_s s₄ src
      some (mk.1, mk.2.1, ev₁ ++ ev₂ ++ mk.2.2)
    | .PingRequest dest =>
      let s₄ := { s₃ with wait_list := add_to_wait_list s₃.wait_list dest src }
      some (s₄, [.React ⟨.Ping, dest⟩], ev₁ ++ ev₂)
    | .AckHost member =>
      match member.remote_host with
      | none => none
      | some addr =>
        let pr := ack_response s₃.pending_responses s₃.state_changes addr
        let s₄ := { s₃ with pending_responses := pr.1, state_changes := pr.2 }
        let mk := mark_node_alive_s s₄ addr
        some (mk.1, mk.2.1, ev₁ ++ ev₂ ++ mk.2.2)

/-- Embeds `State::process_internal_request` (lines 291–309).  Only the `React`
branch prunes timed-out responses before sending.  The returned `Bool` is
true when the request was `Exit` (the reactor then shuts down); `none`
models a panic (either `respond_to_message`'s unwrap or `process_request`'s
MTU assertion). -/
def process_internal_request (size : Message → Nat) (s : State) (now : Nat)
    (msg : InternalRequest) : Option (StepOut × Bool) :=
  match msg with
  | .AddSeed addr =>
    some (⟨{ s with seed_queue := s.seed_queue ++ [addr] }, [], [], []⟩, false)
  | .Respond src m =>
    (respond_to_message s src m).map (fun out =>
      (⟨out.1, out.2.1, out.2.2, []⟩, false))
  | .React req =>
    let pruned := prune_timed_out_responses s now
    (process_request size pruned.state now req).map (fun out =>
      (⟨out.1, pruned.reqs, pruned.events, [out.2]⟩, false))
  | .LeaveCluster =>
    let lv := s.members.leave
    some (⟨{ s with members := lv.2,
                    state_changes := enqueue_state_change s.state_changes [lv.1] },
           [], [], []⟩, false)
  | .Exit => some (⟨s, [], [], []⟩, true)

/-- Embeds `State::enqueue_seed_nodes` (lines 232–239): one Ping reaction per queued
seed. -/
def enqueue_seed_nodes (s : State) : List InternalRequest :=
  s.seed_queue.map (fun seed => .React ⟨.Ping, seed⟩)

/-- Embeds `State::enqueue_random_ping` (lines 241–248).  `rand` stands for
`members.next_random_member()` (modelled from the spec §4.2: some Alive peer
other than self, or none when there is no candidate); `none` in the result
models the panic of `member.remote_host().unwrap()`. -/
def enqueue_random_ping (rand : Option Member) : Option (List InternalRequest) :=
  match rand with
  | none => some []
  | some m => (m.remote_host).map (fun a => [InternalRequest.React ⟨.Ping, a⟩])

/-- Embeds `State::timeout` (lines 162–167), the timer-tick handler: it only
enqueues seed pings and at most one random ping (the timer re-arm is not
part of the state model); it does not itself touch `pending_responses`. -/
def tick (s : State) (rand : Option Member) : Option (List InternalRequest) :=
  (enqueue_random_ping rand).map (fun r => enqueue_seed_nodes s ++ r)

/-- What becomes of one readable datagram in `State::ready` (lines 143–160):
`src_addr` is `recv_from`'s source (after the io-error unwrap) and `decoded`
the result of `json::decode` on the payload.  The code unwraps both, so any
decode failure is a panic, not a drop. -/
inductive ReadyOutcome where
  | enqueue (src : Nat) (msg : Message)
  | panicked
deriving DecidableEq, Repr

/-- The dispatch at line 158 of `lib.rs`:
`InternalRequest::Respond(src_addr.unwrap(), message.unwrap())`. -/
def ready_outcome (src_addr : Option Nat) (decoded : Option Message) : ReadyOutcome :=
  match src_addr, decoded with
  | some a, some m => .enqueue a m
  | _, _ => .panicked

/-! ## Concrete fixtures used by the theorems below -/

/-- A serialized-size model standing in for `json::encode(..).len()` in the
concrete examples: a fixed overhead plus a per-piggybacked-change cost. -/
def exSize : Message → Nat := fun m => 100 + 150 * m.state_changes.length

/-- Example members and states. -/
def exM1 : Member := ⟨1, none, 0, .Alive⟩

def exM1Bump : Member := ⟨1, none, 1, .Suspect⟩

def exM2 : Member := ⟨2, some 5, 0, .Alive⟩

def exCfg : Config := ⟨[0], 1, 200, 3, 3⟩

def exMe : Member := ⟨9, none, 0, .Alive⟩

def exSt1 : State := ⟨9, exCfg, MemberList.new exMe, [], [], [⟨exM2⟩], []⟩

def exStP : State := ⟨9, exCfg, MemberList.new exMe, [], [⟨5, 1, []⟩], [], []⟩

def exStQ : State := ⟨9, exCfg, ⟨9, [exMe, ⟨2, some 1, 0, .Alive⟩]⟩, [], [⟨15, 1, []⟩], [], []⟩

def exTAlive : Member := ⟨2, some 5, 0, .Alive⟩

def exTSusp : Member := ⟨2, some 5, 0, .Suspect⟩

def exStA : State := ⟨9, exCfg, ⟨9, [exMe, exTAlive]⟩, [], [], [], [(5, [9])]⟩

def exStS : State := ⟨9, exCfg, ⟨9, [exMe, exTSusp]⟩, [], [], [], [(5, [9])]⟩

def exAck : Message := ⟨2, [0], .Ack, []⟩

def exWrong : Message := ⟨2, [1], .Ping, []⟩

/-- The ways `lib.rs` mutates the reactor's `state_changes` log after
initialization: a batch enqueue (`enqueue_state_change`, called from
`prune_timed_out_responses`, `process_internal_request`'s LeaveCluster
branch, `respond_to_message` via `apply_state_changes` /
`ensure_node_is_member` / `mark_node_alive`) or the retirement performed by
`ack_response`. -/
inductive LogStep : List StateChange → List StateChange → Prop
  | enqueue (log : List StateChange) (ms : List Member) :
      LogStep log (enqueue_state_change log ms)
  | ack (log : List StateChange) (pending : List PendingProbe) (src : Nat) :
      LogStep log (ack_response pending log src).2

/-- Logs reachable from the initial `state_changes = vec![StateChange::new(me)]`
of `State::new` (line 197 of `lib.rs`) under the mutations of `LogStep`. -/
inductive LogReachable : List StateChange → Prop
  | init (me : Member) : LogReachable [⟨me⟩]
  | step {l l' : List StateChange} : LogReachable l → LogStep l l' → LogReachable l'

/-! ## Claim theorems -/

/-- C1: the claim says `build_message` selects the largest prefix of the log
whose serialization is smaller than `network_mtu`, so every sent `Message`
serializes below the MTU.  The code instead returns the FIRST prefix whose
encoding reaches the MTU: with an empty-message size of 100, 150 per change
and MTU 200, the one-change log yields a message carrying that change at
size 250 ≥ 200 (the fitting prefix would have been the empty one), and
`process_request`'s own `assert!(encoded.len() < network_mtu)` fails
(modelled by `none`); with MTU 50 even the empty prefix overflows and the
assertion fails as well instead of a send-with-warning. -/
theorem C1_build_message_overflows :
    (build_message exSize 9 [0] .Ping [⟨exM2⟩] 200).state_changes = [⟨exM2⟩] ∧
    200 ≤ exSize (build_message exSize 9 [0] .Ping [⟨exM2⟩] 200) ∧
    process_request exSize exSt1 0 ⟨.Ping, 7⟩ = none ∧
    process_request exSize { exSt1 with config := { exCfg with network_mtu := 50 } } 0
      ⟨.Ping, 7⟩ = none := by
  refine ⟨rfl, by decide, rfl, rfl⟩

/-- C2: the claim says pruning removes exactly the pending probes whose
deadline is strictly before `now` and feeds their addresses to
`time_out_nodes`.  The code's `partition (t < now)` binds the OVERDUE entries
to `remaining` and the not-yet-due ones to `expired`: a probe with deadline 5
at time 10 is kept forever and nothing is timed out, while a fresh probe with
deadline 15 at time 10 is expelled immediately and its target is driven to
Suspect. -/
theorem C2_prune_is_inverted :
    (prune_timed_out_responses exStP 10).state.pending_responses = [⟨5, 1, []⟩] ∧
    (prune_timed_out_responses exStP 10).state.members = exStP.members ∧
    (prune_timed_out_responses exStP 10).events = [] ∧
    (prune_timed_out_responses exStQ 10).state.pending_responses = [] ∧
    (prune_timed_out_responses exStQ 10).events =
      [(MemberList.available_nodes ⟨9, [exMe, ⟨2, some 1, 0, .Suspect⟩]⟩,
        .MemberSuspectedDown ⟨2, some 1, 0, .Suspect⟩)] := by
  refine ⟨rfl, rfl, rfl, rfl, rfl⟩

/-- C4: the claim says `enqueue_state_change` processes every member of its
batch.  The Rust `return` inside the inner scan exits the whole function on
the first in-place overwrite: enqueueing the batch `[exM1Bump, exM2]` into a
log that already holds `host_key` 1 updates that entry and silently drops
`exM2`, so no entry with `host_key` 2 is ever appended. -/
theorem C4_batch_is_dropped :
    enqueue_state_change [⟨exM1⟩] [exM1Bump, exM2] = [⟨exM1Bump⟩] ∧
    (enqueue_state_change [⟨exM1⟩] [exM1Bump, exM2]).all
      (fun sc => sc.member.host_key != 2) = true := by
  exact ⟨rfl, rfl⟩

/-- C6: the claim says an undecodable datagram is dropped with a warning and
the reactor keeps running.  The code calls `.unwrap()` on the decode result
(line 158), so a decode failure panics the reactor thread instead. -/
theorem C6_decode_failure_panics :
    ready_outcome (some 1) none = .panicked ∧
    ready_outcome (some 1) (some exAck) = .enqueue 1 exAck := by
  exact ⟨rfl, rfl⟩

/-- C7: a message whose `cluster_key` differs from the configured one is
discarded: the state is returned unchanged and no reaction and no cluster
event is produced. -/
theorem C7_mismatched_key_is_ignored (s : State) (src : Nat) (msg : Message)
    (h : msg.cluster_key ≠ s.config.cluster_key) :
    respond_to_message s src msg = some (s, [], []) := by
  unfold respond_to_message
  simp [h]

/-- Witness for C7 at a concrete mismatching message. -/
theorem C7_mismatched_key_is_ignored_witness :
    exWrong.cluster_key ≠ exStA.config.cluster_key ∧
    respond_to_message exStA 5 exWrong = some (exStA, [], []) :=
  ⟨by decide, C7_mismatched_key_is_ignored exStA 5 exWrong (by decide)⟩

/-- C3 counterexample: the target at address 5 is already Alive, a relay
(address 9) is waiting on `WaitList[5]`, and a direct Ack arrives from 5.
The claim says the relay must be sent an `AckHost` and the wait list entry
cleared; the code only does so when `members.mark_node_alive` reports an
actual state change, so here nothing is sent and the wait list still holds
the relay. -/
theorem C3_already_alive_no_ackhost :
    respond_to_message exStA 5 exAck = some (exStA, [], []) ∧
    exStA.wait_list = [(5, [9])] := by
  exact ⟨rfl, rfl⟩

/-- Clearing a wait-list entry empties the vector stored under the key (and
only creates nothing: an absent key stays absent). -/
lemma wl_lookup_clear (wl : List (Nat × List Nat)) (k : Nat) :
    wl_lookup (wl_clear wl k) k = (wl_lookup wl k).map (fun _ => ([] : List Nat)) := by
  induction wl with
  | nil => rfl
  | cons e rest ih =>
    by_cases h : e.1 = k
    · simp [wl_clear, wl_lookup, List.find?, h]
    · simp only [wl_clear, List.map_cons, if_neg h, wl_lookup] at ih ⊢
      rw [List.find?_cons_of_neg _ (by simpa using h),
          List.find?_cons_of_neg _ (by simpa using h)]
      exact ih

/-- C3 amended: the wait list is notified exactly when the ack actually
changes the target's state to Alive.  When `members.mark_node_alive`
reports a change, every relay recorded under the target's address is sent an
`AckHost` with the fresh snapshot and the entry is emptied; when it reports
no change (e.g. the target was already Alive), nothing is sent and the
reactor state is untouched. -/
theorem C3_ackhost_iff_actual_change (s : State) (src : Nat) (m : Member)
    (ml ml₂ : MemberList) :
    (s.members.mark_node_alive src = (some m, ml) →
      (mark_node_alive_s s src).2.1 =
        ((wl_lookup s.wait_list src).getD []).map
          (fun r => InternalRequest.React ⟨.AckHost m, r⟩) ∧
      wl_lookup (mark_node_alive_s s src).1.wait_list src =
        (wl_lookup s.wait_list src).map (fun _ => [])) ∧
    (s.members.mark_node_alive src = (none, ml₂) →
      mark_node_alive_s s src = (s, [], [])) := by
  constructor
  · intro h
    unfold mark_node_alive_s
    rw [h]
    exact ⟨rfl, wl_lookup_clear s.wait_list src⟩
  · intro h
    unfold mark_node_alive_s
    rw [h]

/-- Witness for C3's amended theorem: the target at address 5 is Suspect, so
the ack changes its state; the single waiting relay (address 9) receives the
`AckHost` and the entry is emptied. -/
theorem C3_ackhost_iff_actual_change_witness :
    (mark_node_alive_s exStS 5).2.1 =
      ((wl_lookup exStS.wait_list 5).getD []).map
        (fun r => InternalRequest.React ⟨.AckHost exTAlive, r⟩) ∧
    wl_lookup (mark_node_alive_s exStS 5).1.wait_list 5 =
      (wl_lookup exStS.wait_list 5).map (fun _ => []) :=
  (C3_ackhost_iff_actual_change exStS 5 exTAlive ⟨9, [exMe, exTAlive]⟩ ⟨9, []⟩).1 (by decide)

/-- C10 counterexample: with an empty seed queue and no random Alive member,
a timer tick enqueues no internal command at all, even while an overdue
pending probe exists — so nothing triggers `prune_timed_out_responses` on
that tick (pruning only happens in `process_internal_request`'s `React`
branch). -/
theorem C10_tick_without_candidates_is_silent :
    exStP.seed_queue = [] ∧ exStP.pending_responses = [⟨5, 1, []⟩] ∧
    tick exStP none = some [] :=
  ⟨rfl, rfl, rfl⟩

/-- C10 amended: pruning happens on every internal `React` command — after a
successful React step the pending list is the (code's) pruned one, plus the
fresh probe when the request was a Ping — while a timer tick merely enqueues
Ping reactions for the seeds and the optional random member, so a tick with
an empty seed queue and no random member enqueues nothing and nothing is
pruned. -/
theorem C10_prune_on_react_only (size : Message → Nat) (s : State) (now : Nat)
    (req : TargetedRequest) (out : StepOut) (b : Bool) :
    (process_internal_request size s now (.React req) = some (out, b) →
      out.state.pending_responses =
        (s.pending_responses.partition (fun p => p.deadline < now)).1 ++
        (if req.request = Request.Ping
         then [⟨now + s.config.ping_timeout, req.target,
               (build_message size s.host_key s.config.cluster_key req.request
                  (prune_timed_out_responses s now).state.state_changes
                  s.config.network_mtu).state_changes⟩]
         else [])) ∧
    (s.seed_queue = [] → tick s none = some []) := by
  constructor
  · intro h
    simp only [process_internal_request, Option.map_eq_some'] at h
    obtain ⟨a, hp, heq⟩ := h
    cases heq
    simp only [process_request] at hp
    split at hp
    · injection hp with hX
      subst hX
      by_cases hreq : req.request = Request.Ping <;>
        simp [hreq, prune_timed_out_responses]
    · simp at hp
  · intro h
    simp [tick, enqueue_random_ping, enqueue_seed_nodes, h]

/-- Witness for C10's amended theorem: a React(Ack) step from a state with
one overdue probe keeps the (code-pruned) pending list unchanged, and the
tick from that same state enqueues nothing. -/
theorem C10_prune_on_react_only_witness :
    ((⟨exStP, [], [], [(3, ⟨9, [0], .Ack, []⟩)]⟩ : StepOut).state.pending_responses =
      (exStP.pending_responses.partition (fun p => p.deadline < 10)).1 ++
      (if Request.Ack = Request.Ping
       then [⟨10 + exStP.config.ping_timeout, 3,
             (build_message exSize exStP.host_key exStP.config.cluster_key Request.Ack
                (prune_timed_out_responses exStP 10).state.state_changes
                exStP.config.network_mtu).state_changes⟩]
       else [])) ∧
    tick exStP none = some [] :=
  ⟨(C10_prune_on_react_only exSize exStP 10 ⟨.Ack, 3⟩
      ⟨exStP, [], [], [(3, ⟨9, [0], .Ack, []⟩)]⟩ false).1 rfl,
   (C10_prune_on_react_only exSize exStP 10 ⟨.Ack, 3⟩
      ⟨exStP, [], [], [(3, ⟨9, [0], .Ack, []⟩)]⟩ false).2 rfl⟩

/-- Membership in a fold of successive filters: the element must be in the
start list and pass every filter. -/
lemma mem_foldl_filter {α β : Type} (f : β → α → Bool) (rs : List β) (l : List α) (a : α) :
    a ∈ rs.foldl (fun acc r => acc.filter (f r)) l ↔ a ∈ l ∧ ∀ r ∈ rs, f r a = true := by
  induction rs generalizing l with
  | nil => simp
  | cons r rs ih =>
    simp only [List.foldl_cons, ih, List.mem_filter, List.mem_cons]
    constructor
    · rintro ⟨⟨ha, hf⟩, hall⟩
      refine ⟨ha, fun x hx => ?_⟩
      rcases hx with rfl | hx
      · exact hf
      · exact hall x hx
    · rintro ⟨ha, hall⟩
      exact ⟨⟨ha, hall r (Or.inl rfl)⟩, fun x hx => hall x (Or.inr hx)⟩

/-- The piggybacked changes of any built message are a prefix of the log it
was built from. -/
lemma build_message_state_changes_take (size : Message → Nat) (sender : Nat)
    (ck : List Nat) (req : Request) (log : List StateChange) (mtu : Nat) :
    ∃ i, (build_message size sender ck req log mtu).state_changes = log.take i := by
  unfold build_message
  split
  · exact ⟨_, rfl⟩
  · exact ⟨log.length, by simp⟩

/-- C5: an Ack from `src` retires exactly the pending probes targeted at
`src`; afterwards no log entry carries a `host_key` piggybacked on any of
those probes, and consequently no message built from the new log carries one
either. -/
theorem C5_ack_retires_probes_and_changes (pending : List PendingProbe)
    (log : List StateChange) (src : Nat) :
    (∀ p : PendingProbe, p ∈ (ack_response pending log src).1 ↔
      (p ∈ pending ∧ p.addr ≠ src)) ∧
    (∀ sc ∈ (ack_response pending log src).2, sc ∈ log ∧
      ∀ p ∈ pending, p.addr = src → ∀ c ∈ p.changes,
        c.member.host_key ≠ sc.member.host_key) ∧
    (∀ (size : Message → Nat) (sender : Nat) (ck : List Nat) (req : Request) (mtu : Nat),
      ∀ sc ∈ (build_message size sender ck req (ack_response pending log src).2 mtu).state_changes,
        ∀ p ∈ pending, p.addr = src → ∀ c ∈ p.changes,
          c.member.host_key ≠ sc.member.host_key) := by
  have hmem2 : ∀ sc ∈ (ack_response pending log src).2, sc ∈ log ∧
      ∀ p ∈ pending, p.addr = src → ∀ c ∈ p.changes,
        c.member.host_key ≠ sc.member.host_key := by
    intro sc hsc
    unfold ack_response at hsc
    rw [mem_foldl_filter] at hsc
    obtain ⟨hlog, hall⟩ := hsc
    refine ⟨hlog, fun p hp hpa c hc => ?_⟩
    have hpfilter : p ∈ pending.filter (fun p => decide (p.addr = src)) := by
      simp [List.mem_filter, hp, hpa]
    have := hall p hpfilter
    simp only [decide_eq_true_eq, List.any_eq_true, not_exists, not_and] at this
    intro hkey
    exact absurd hkey (by simpa using this c hc)
  refine ⟨?_, hmem2, ?_⟩
  · intro p
    unfold ack_response
    simp only [List.mem_filter, decide_eq_true_eq, List.any_eq_true]
    constructor
    · rintro ⟨hp, hnone⟩
      refine ⟨hp, fun hpa => ?_⟩
      exact hnone ⟨p, ⟨hp, hpa⟩, rfl⟩
    · rintro ⟨hp, hpa⟩
      refine ⟨hp, ?_⟩
      rintro ⟨q, hq, hqe⟩
      subst hqe
      exact hpa hq.2
  · intro size sender ck req mtu sc hsc p hp hpa c hc
    obtain ⟨i, hi⟩ := build_message_state_changes_take size sender ck req
      (ack_response pending log src).2 mtu
    rw [hi] at hsc
    exact (hmem2 sc (List.take_subset i _ hsc)).2 p hp hpa c hc

/-- Witness for C5: with a probe for address 1 piggybacking the change for
`host_key` 2, a probe for address 2, and a log holding keys 2 and 1, the ack
from 1 keeps the probe for address 2 pending, and the surviving log entry for
key 1 is disjoint from the retired key 2. -/
theorem C5_ack_retires_probes_and_changes_witness :
    ((⟨7, 2, []⟩ : PendingProbe) ∈
      (ack_response [⟨5, 1, [⟨exM2⟩]⟩, ⟨7, 2, []⟩] [⟨exM2⟩, ⟨exM1⟩] 1).1) ∧
    ((⟨exM1⟩ : StateChange) ∈
      (ack_response [⟨5, 1, [⟨exM2⟩]⟩, ⟨7, 2, []⟩] [⟨exM2⟩, ⟨exM1⟩] 1).2) ∧
    exM2.host_key ≠ exM1.host_key :=
  ⟨((C5_ack_retires_probes_and_changes [⟨5, 1, [⟨exM2⟩]⟩, ⟨7, 2, []⟩] [⟨exM2⟩, ⟨exM1⟩] 1).1
      ⟨7, 2, []⟩).mpr ⟨by decide, by decide⟩,
   by decide,
   ((C5_ack_retires_probes_and_changes [⟨5, 1, [⟨exM2⟩]⟩, ⟨7, 2, []⟩] [⟨exM2⟩, ⟨exM1⟩] 1).2.1
      ⟨exM1⟩ (by decide)).2 ⟨5, 1, [⟨exM2⟩]⟩ (by decide) rfl ⟨exM2⟩ (by decide)⟩

/-- A successful in-place overwrite leaves the sequence of `host_key`s of the
log unchanged (the hit entry's key equals the new member's key). -/
lemma overwriteFirst_keys {log log₂ : List StateChange} {m : Member}
    (h : overwriteFirst log m = some log₂) :
    log₂.map (fun sc => sc.member.host_key) = log.map (fun sc => sc.member.host_key) := by
  induction log generalizing log₂ with
  | nil => simp [overwriteFirst] at h
  | cons sc rest ih =>
    rw [overwriteFirst] at h
    split at h
    · rename_i hk
      obtain ⟨rfl⟩ : sc.update m :: rest = log₂ := by simpa using h
      simp [StateChange.update, hk]
    · cases hrec : overwriteFirst rest m with
      | none => rw [hrec] at h; simp at h
      | some l₂ =>
        rw [hrec] at h
        obtain ⟨rfl⟩ : sc :: l₂ = log₂ := by simpa using h
        simp [ih hrec]

/-- A failed overwrite means the member's key occurs nowhere in the log. -/
lemma overwriteFirst_none {log : List StateChange} {m : Member}
    (h : overwriteFirst log m = none) :
    ∀ sc ∈ log, sc.member.host_key ≠ m.host_key := by
  induction log with
  | nil => simp
  | cons sc rest ih =>
    rw [overwriteFirst] at h
    split at h
    · simp at h
    · rename_i hk
      cases hrec : overwriteFirst rest m with
      | some l₂ => rw [hrec] at h; simp at h
      | none =>
        intro x hx
        rcases List.mem_cons.mp hx with rfl | hx
        · exact hk
        · exact ih hrec x hx

/-- Lemma: `enqueue_state_change` preserves distinctness of the `host_key`s. -/
lemma enqueue_keys_nodup {log : List StateChange} (ms : List Member)
    (h : (log.map (fun sc => sc.member.host_key)).Nodup) :
    ((enqueue_state_change log ms).map (fun sc => sc.member.host_key)).Nodup := by
  induction ms generalizing log with
  | nil => simpa [enqueue_state_change]
  | cons m rest ih =>
    rw [enqueue_state_change]
    cases hov : overwriteFirst log m with
    | some log₂ => simpa [overwriteFirst_keys hov] using h
    | none =>
      apply ih
      rw [List.map_append]
      simp only [List.map_cons, List.map_nil]
      rw [List.nodup_append]
      refine ⟨h, List.nodup_singleton _, ?_⟩
      intro k hk hk1
      rw [List.mem_singleton] at hk1
      obtain ⟨sc, hsc, rfl⟩ := List.mem_map.mp hk
      exact overwriteFirst_none hov sc hsc hk1

/-- A fold of filters is a sublist of the start list. -/
lemma foldl_filter_sublist {α β : Type} (f : β → α → Bool) (rs : List β) (l : List α) :
    List.Sublist (rs.foldl (fun acc r => acc.filter (f r)) l) l := by
  induction rs generalizing l with
  | nil => simp
  | cons r rs ih => exact List.Sublist.trans (ih (l.filter (f r))) (List.filter_sublist l)

/-- Retirement on ack (`ack_response`) preserves distinctness of the log's
`host_key`s. -/
lemma ack_keys_nodup (pending : List PendingProbe) {log : List StateChange} (src : Nat)
    (h : (log.map (fun sc => sc.member.host_key)).Nodup) :
    (((ack_response pending log src).2).map (fun sc => sc.member.host_key)).Nodup := by
  unfold ack_response
  exact List.Nodup.sublist (List.Sublist.map _ (foldl_filter_sublist _ _ _)) h


/-- C8: in every reachable reactor state the `host_key`s of the entries of
the state-change log are pairwise distinct; the initial log and every
mutation (batch enqueue, retirement on ack) preserve the invariant. -/
theorem C8_log_keys_pairwise_distinct {l : List StateChange} (h : LogReachable l) :
    (l.map (fun sc => sc.member.host_key)).Nodup := by
  induction h with
  | init me => simp
  | step _ hstep ih =>
    cases hstep with
    | enqueue ms => exact enqueue_keys_nodup ms ih
    | ack pending src => exact ack_keys_nodup pending src ih

/-- Witness for C8: a log reached by initializing with the local member and
enqueueing one new member has distinct keys. -/
theorem C8_log_keys_pairwise_distinct_witness :
    ((enqueue_state_change [⟨exMe⟩] [exM2]).map (fun sc => sc.member.host_key)).Nodup :=
  C8_log_keys_pairwise_distinct
    (LogReachable.step (LogReachable.init exMe) (LogStep.enqueue [⟨exMe⟩] [exM2]))

/-- Lemma: `determine_member_event` always builds the event matching the member's
state, so it always passes the `send_member_event` assertions. -/
lemma determine_member_event_ok (m : Member) :
    event_state_ok (determine_member_event m) = true := by
  cases h : m.state <;> simp [determine_member_event, event_state_ok, h]

/-- A member flagged as newly Suspect by `timeOutStep` is in state Suspect. -/
lemma timeOutStep_suspect (expired : List Nat) (m : Member)
    (h : (timeOutStep expired m).2.1 = true) :
    (timeOutStep expired m).1.state = .Suspect := by
  by_cases hc : (m.address.map (fun a => decide (a ∈ expired))).getD false = true
  · cases hs : m.state <;> simp_all [timeOutStep]
  · simp_all [timeOutStep]

/-- A member flagged as newly Down by `timeOutStep` is in state Down. -/
lemma timeOutStep_down (expired : List Nat) (m : Member)
    (h : (timeOutStep expired m).2.2 = true) :
    (timeOutStep expired m).1.state = .Down := by
  by_cases hc : (m.address.map (fun a => decide (a ∈ expired))).getD false = true
  · cases hs : m.state <;> simp_all [timeOutStep]
  · simp_all [timeOutStep]

/-- Every member reported newly Suspect by `time_out_nodes` is Suspect, and
every member reported newly Down is Down. -/
lemma time_out_nodes_states (ml : MemberList) (expired : List Nat) :
    (∀ m ∈ (ml.time_out_nodes expired).2.1, m.state = .Suspect) ∧
    (∀ m ∈ (ml.time_out_nodes expired).2.2, m.state = .Down) := by
  constructor <;> intro m hm <;>
    simp only [MemberList.time_out_nodes, List.mem_map, List.mem_filter] at hm <;>
    obtain ⟨x, ⟨hx, hflag⟩, rfl⟩ := hm <;>
    obtain ⟨m₀, -, rfl⟩ := hx
  · exact timeOutStep_suspect expired m₀ hflag
  · exact timeOutStep_down expired m₀ hflag

/-- When `mark_node_alive` reports a member, that member is Alive. -/
lemma mark_node_alive_state {ml : MemberList} {addr : Nat} {m : Member}
    (h : (ml.mark_node_alive addr).1 = some m) : m.state = .Alive := by
  cases hf : ml.members.find? (fun x => decide (x.address = some addr)) with
  | none => simp [MemberList.mark_node_alive, hf] at h
  | some m₀ =>
    simp only [MemberList.mark_node_alive, hf] at h
    by_cases hst : m₀.state = MemberState.Alive
    · rw [if_pos hst] at h; simp at h
    · rw [if_neg hst] at h
      have he : ({ m₀ with state := MemberState.Alive } : Member) = m := by
        simpa using h
      rw [← he]

/-- Every event emitted by `apply_state_changes` passes the assertions. -/
lemma apply_state_changes_events_ok (s : State) (cs : List StateChange) (f : Nat) :
    ∀ e ∈ (apply_state_changes_s s cs f).2, event_state_ok e.2 = true := by
  intro e he
  simp only [apply_state_changes_s, send_member_event, List.mem_append, List.mem_map] at he
  rcases he with ⟨m, _, rfl⟩ | ⟨m, _, rfl⟩
  · rfl
  · exact determine_member_event_ok m

/-- Every event emitted by `ensure_node_is_member` passes the assertions. -/
lemma ensure_node_is_member_events_ok (s : State) (src sender : Nat) :
    ∀ e ∈ (ensure_node_is_member s src sender).2, event_state_ok e.2 = true := by
  intro e he
  unfold ensure_node_is_member at he
  split at he
  · simp at he
  · simp only [send_member_event, List.mem_singleton] at he
    subst he
    rfl

/-- Every event emitted by `mark_node_alive` passes the assertions. -/
lemma mark_node_alive_events_ok (s : State) (src : Nat) :
    ∀ e ∈ (mark_node_alive_s s src).2.2, event_state_ok e.2 = true := by
  intro e he
  cases hr : (s.members.mark_node_alive src).1 with
  | none => simp [mark_node_alive_s, hr] at he
  | some member =>
    simp only [mark_node_alive_s, hr, send_member_event, List.mem_singleton] at he
    subst he
    simp [event_state_ok, mark_node_alive_state hr]

/-- Every event emitted by `prune_timed_out_responses` passes the assertions
and is paired with the availability snapshot of the updated member list. -/
lemma prune_events_ok (s : State) (now : Nat) :
    ∀ e ∈ (prune_timed_out_responses s now).events, event_state_ok e.2 = true ∧
      e.1 = (prune_timed_out_responses s now).state.members.available_nodes := by
  intro e he
  simp only [prune_timed_out_responses, send_member_event, List.mem_append,
    List.mem_map] at he ⊢
  rcases he with ⟨m, hm, rfl⟩ | ⟨m, hm, rfl⟩
  · exact ⟨by simp [event_state_ok, (time_out_nodes_states s.members _).1 m hm], rfl⟩
  · exact ⟨by simp [event_state_ok, (time_out_nodes_states s.members _).2 m hm], rfl⟩

/-- Every event emitted by `respond_to_message` passes the assertions. -/
lemma respond_events_ok (s : State) (src : Nat) (msg : Message)
    (out : State × List InternalRequest × List ClusterEvent)
    (h : respond_to_message s src msg = some out) :
    ∀ e ∈ out.2.2, event_state_ok e.2 = true := by
  intro e he
  unfold respond_to_message at h
  split at h
  · simp only [Option.some.injEq] at h
    subst h
    simp at he
  · cases hreq : msg.request with
    | Ping =>
      rw [hreq] at h
      simp only [Option.some.injEq] at h
      subst h
      rcases List.mem_append.mp he with h1 | h2
      · exact apply_state_changes_events_ok s msg.state_changes src e h1
      · exact ensure_node_is_member_events_ok _ src msg.sender e h2
    | Ack =>
      rw [hreq] at h
      simp only [Option.some.injEq] at h
      subst h
      rcases List.mem_append.mp he with h12 | h3
      · rcases List.mem_append.mp h12 with h1 | h2
        · exact apply_state_changes_events_ok s msg.state_changes src e h1
        · exact ensure_node_is_member_events_ok _ src msg.sender e h2
      · exact mark_node_alive_events_ok _ src e h3
    | PingRequest dest =>
      rw [hreq] at h
      simp only [Option.some.injEq] at h
      subst h
      rcases List.mem_append.mp he with h1 | h2
      · exact apply_state_changes_events_ok s msg.state_changes src e h1
      · exact ensure_node_is_member_events_ok _ src msg.sender e h2
    | AckHost member =>
      rw [hreq] at h
      cases ha : member.remote_host with
      | none => simp [ha] at h
      | some addr =>
        simp only [ha, Option.some.injEq] at h
        subst h
        rcases List.mem_append.mp he with h12 | h3
        · rcases List.mem_append.mp h12 with h1 | h2
          · exact apply_state_changes_events_ok s msg.state_changes src e h1
          · exact ensure_node_is_member_events_ok _ src msg.sender e h2
        · exact mark_node_alive_events_ok _ addr e h3

/-- C9: every cluster event produced by processing an internal request
passes the state assertions of `send_member_event` (so the `assert_eq!`
guards never fire), `determine_member_event` always yields the event
matching the member's state, and the events of a prune are paired with the
availability snapshot of the updated member list. -/
theorem C9_events_carry_matching_state :
    (∀ m, event_state_ok (determine_member_event m) = true) ∧
    (∀ (size : Message → Nat) (s : State) (now : Nat) (msg : InternalRequest)
        (out : StepOut) (b : Bool),
      process_internal_request size s now msg = some (out, b) →
      ∀ e ∈ out.events, event_state_ok e.2 = true) ∧
    (∀ (s : State) (now : Nat), ∀ e ∈ (prune_timed_out_responses s now).events,
      e.1 = (prune_timed_out_responses s now).state.members.available_nodes) := by
  refine ⟨determine_member_event_ok, ?_, fun s now e he => (prune_events_ok s now e he).2⟩
  intro size s now msg out b h e he
  cases msg with
  | AddSeed addr =>
    simp only [process_internal_request, Option.some.injEq, Prod.mk.injEq] at h
    obtain ⟨rfl, rfl⟩ := h
    simp at he
  | Respond src m =>
    simp only [process_internal_request, Option.map_eq_some'] at h
    obtain ⟨a, ha, heq⟩ := h
    simp only [Prod.mk.injEq] at heq
    obtain ⟨rfl, rfl⟩ := heq
    exact respond_events_ok s src m a ha e he
  | React req =>
    simp only [process_internal_request, Option.map_eq_some'] at h
    obtain ⟨a, -, heq⟩ := h
    simp only [Prod.mk.injEq] at heq
    obtain ⟨rfl, rfl⟩ := heq
    exact (prune_events_ok s now e he).1
  | LeaveCluster =>
    simp only [process_internal_request, Option.some.injEq, Prod.mk.injEq] at h
    obtain ⟨rfl, rfl⟩ := h
    simp at he
  | Exit =>
    simp only [process_internal_request, Option.some.injEq, Prod.mk.injEq] at h
    obtain ⟨rfl, rfl⟩ := h
    simp at he

/-- Witness for C9: processing a direct Ack from the Suspect member at
address 5 emits a `MemberWentUp` event that passes the assertion. -/
theorem C9_events_carry_matching_state_witness :
    event_state_ok (MemberEvent.MemberWentUp exTAlive) = true :=
  C9_events_carry_matching_state.2.1 exSize exStS 0 (.Respond 5 exAck)
    ⟨(mark_node_alive_s exStS 5).1, (mark_node_alive_s exStS 5).2.1,
      (mark_node_alive_s exStS 5).2.2, []⟩
    false (by decide)
    ((MemberList.available_nodes ⟨9, [exMe, exTAlive]⟩), MemberEvent.MemberWentUp exTAlive)
    (by decide)

end Swim
